import Mathlib

/-!
Verification of the innoversat/logger transport layer.

This file gives a shallow embedding, in Lean, of the transport-layer code of
the repository (src/transports/base.transport.ts, http.transport.ts,
file.transport.ts, websocket.transport.ts) and proves properties of that
embedding.  Each definition is translated from the TypeScript source it is
named after; JavaScript falsiness of numeric options (the `x || d` and
`if (x && ...)` idioms applied to possibly-zero numbers) is translated
explicitly wherever the source relies on it.
-/

namespace LoggerSpec

/-- Modelled from the spec: the file src/log-level.ts is not part of the
source tree given under src/ (only its importers are).  The spec fixes the
level enumeration and its ordering as debug < info < warn < error < fatal,
which is also the declaration order that `Object.values(LogLevel)` returns
in `BaseTransport.shouldLog`. -/
inductive LogLevel where
  | debug
  | info
  | warn
  | error
  | fatal
deriving DecidableEq, Repr, Fintype

/-- Translation of `Object.values(LogLevel)`: the enum member values in
declaration order, as used by `BaseTransport.shouldLog`. -/
def logLevelValues : List LogLevel :=
  [.debug, .info, .warn, .error, .fatal]

/-- Position of a level inside `logLevelValues`, that is
`levels.indexOf(level)` in `BaseTransport.shouldLog`. -/
def levelIndex (l : LogLevel) : Nat :=
  logLevelValues.indexOf l

/-- Spec-side ordinal of a level in the fixed ordering
debug < info < warn < error < fatal (written from the spec's words,
to be compared with the code-side `levelIndex`). -/
def specLevelOrd : LogLevel → Nat
  | .debug => 0
  | .info => 1
  | .warn => 2
  | .error => 3
  | .fatal => 4

/-- Translation of `BaseTransport.shouldLog` (base.transport.ts lines
52-60).  The TypeScript guard `if (!this.options.minLevel) return true`
tests falsiness; every enum member is a non-empty string, so the guard
fires exactly when the option is absent, which the embedding renders as
`Option.none`. -/
def shouldLog (minLevel : Option LogLevel) (level : LogLevel) : Bool :=
  match minLevel with
  | none => true
  | some m => levelIndex m ≤ levelIndex level

/-- Log entry record, translation of the `LogEntry` interface of
base.transport.ts.  The `meta` payload is arbitrary structured data that
every transport only ever serializes, so it is embedded as its serialized
form. -/
structure LogEntry where
  timestamp : String
  level : LogLevel
  message : String
  meta : Option String
  stackTrace : Option String
deriving DecidableEq, Repr

/-- C1: a transport with no configured minLevel admits every entry, and a
transport with minLevel configured admits an entry exactly when the ordinal
of the entry's level in the ordering debug < info < warn < error < fatal is
at least the ordinal of minLevel; hence any transport whose minLevel is the
strictly higher of two levels rejects the lower level and admits everything
at or above its minLevel. -/
theorem shouldLog_admission :
    (∀ l, shouldLog none l = true) ∧
    (∀ m l, shouldLog (some m) l = true ↔ specLevelOrd m ≤ specLevelOrd l) ∧
    (∀ l1 l2, specLevelOrd l1 < specLevelOrd l2 →
      shouldLog (some l2) l1 = false ∧
      ∀ l, specLevelOrd l2 ≤ specLevelOrd l → shouldLog (some l2) l = true) := by
  decide

/-- Concrete instance of `shouldLog_admission`: a transport with
minLevel = warn rejects a debug entry and admits an error entry. -/
theorem shouldLog_admission_witness :
    shouldLog (some .warn) .debug = false ∧ shouldLog (some .warn) .error = true := by
  refine ⟨(shouldLog_admission.2.2 .debug .warn (by decide)).1, ?_⟩
  exact (shouldLog_admission.2.2 .debug .warn (by decide)).2 .error (by decide)

/-- Sample log entry mirroring the one used by the repository's test suite. -/
def sampleEntry : LogEntry :=
  { timestamp := "2023-01-01T12:00:00.000Z"
    level := .info
    message := "Test message"
    meta := some "user test-user"
    stackTrace := none }

/-! HTTP transport, immediate (non-batch) mode: `HttpTransport.sendLog`. -/

/-- Observable delivery event of the immediate-mode HTTP path: an HTTP POST
attempt (indexed by the `retryAttempt` counter of `sendLog`) or a
`setTimeout` pause of the given number of milliseconds. -/
inductive HttpEvent where
  | attempt (idx : Nat)
  | wait (ms : Nat)
deriving DecidableEq, Repr

/-- Predicate singling out POST attempts in a trace of `HttpEvent`s. -/
def isAttempt : HttpEvent → Bool
  | .attempt _ => true
  | .wait _ => false

/-- Translation of the use-site default `this.options.retryDelay || 1000`
in `HttpTransport.sendLog`: a zero (falsy) retryDelay falls back to
1000 ms. -/
def effRetryDelay (retryDelay : Nat) : Nat :=
  if retryDelay = 0 then 1000 else retryDelay

/-- Translation of `HttpTransport.sendLog` (http.transport.ts lines
105-130), instrumented with the trace of attempts and pauses it performs.
`succeeds i` tells whether the POST of attempt number `i` succeeds (fetch
resolves with a 2xx status); on failure the catch block either pauses for
the retry delay and recurses with `retryAttempt + 1` (when
`retryAttempt < retryCount`) or returns, dropping the entry.  The boolean
result is `true` exactly when some attempt delivered the entry; the
function always returns (the catch block swallows every error), which is
how the source resolves its promise without rethrowing. -/
def sendLogFrom (succeeds : Nat → Bool) (retryCount retryDelay retryAttempt : Nat) :
    List HttpEvent × Bool :=
  if succeeds retryAttempt then ([.attempt retryAttempt], true)
  else if h : retryAttempt < retryCount then
    let rest := sendLogFrom succeeds retryCount retryDelay (retryAttempt + 1)
    (.attempt retryAttempt :: .wait (effRetryDelay retryDelay) :: rest.1, rest.2)
  else ([.attempt retryAttempt], false)
termination_by retryCount - retryAttempt

/-- Entry point of `HttpTransport.sendLog`: the default argument
`retryAttempt = 0`. -/
def sendLog (succeeds : Nat → Bool) (retryCount retryDelay : Nat) : List HttpEvent × Bool :=
  sendLogFrom succeeds retryCount retryDelay 0

/-- Translation of `HttpTransport.log` (http.transport.ts lines 80-100)
with `batchLogs` disabled: the level gate, then `sendLog` on the admitted
entry.  A rejected entry produces no events. -/
def httpLogImmediate (minLevel : Option LogLevel) (succeeds : Nat → Bool)
    (retryCount retryDelay : Nat) (e : LogEntry) : List HttpEvent × Bool :=
  if shouldLog minLevel e.level then sendLog succeeds retryCount retryDelay
  else ([], false)

theorem sendLogFrom_allFail (succeeds : Nat → Bool) (hf : ∀ i, succeeds i = false)
    (retryCount retryDelay : Nat) :
    ∀ a, a ≤ retryCount →
      sendLogFrom succeeds retryCount retryDelay a =
        (List.intersperse (.wait (effRetryDelay retryDelay))
          ((List.range' a (retryCount + 1 - a)).map HttpEvent.attempt), false) := by
  have key : ∀ n a, retryCount - a = n → a ≤ retryCount →
      sendLogFrom succeeds retryCount retryDelay a =
        (List.intersperse (.wait (effRetryDelay retryDelay))
          ((List.range' a (retryCount + 1 - a)).map HttpEvent.attempt), false) := by
    intro n
    induction n with
    | zero =>
      intro a h1 h2
      have hge : ¬ a < retryCount := by omega
      have hn : retryCount + 1 - a = 1 := by omega
      rw [sendLogFrom]
      simp [hf, hge, hn, List.range'_one]
    | succ n ih =>
      intro a h1 h2
      have hlt : a < retryCount := by omega
      have hrest := ih (a + 1) (by omega) (by omega)
      have h4 : retryCount + 1 - (a + 1) = n + 1 := by omega
      have h3 : retryCount + 1 - a = n + 1 + 1 := by omega
      rw [h4] at hrest
      rw [sendLogFrom]
      simp only [hf, hlt, if_false, dite_true, if_true, Bool.false_eq_true, dif_pos, hrest]
      conv_lhs => rw [List.range'_succ, List.map_cons]
      conv_rhs => rw [h3, List.range'_succ, List.map_cons, List.range'_succ, List.map_cons,
        List.intersperse_cons_cons]
  intro a ha
  exact key (retryCount - a) a rfl ha

theorem countP_isAttempt_intersperse (d : Nat) (xs : List Nat) :
    (List.intersperse (HttpEvent.wait d) (xs.map HttpEvent.attempt)).countP isAttempt
      = xs.length := by
  induction xs with
  | nil => rfl
  | cons x t ih =>
    cases t with
    | nil => rfl
    | cons y r =>
      rw [List.map_cons, List.map_cons, List.intersperse_cons_cons, List.countP_cons,
        List.countP_cons]
      rw [List.map_cons] at ih
      rw [ih]
      simp [isAttempt, List.length_cons]

/-- C2: in immediate mode, delivery of an admitted entry whose every POST
attempt fails performs exactly `retryCount + 1` attempts, the initial one
plus `retryCount` retries, with a pause of the effective retry delay
(`retryDelay`, or the 1000 ms fallback when it is zero — in either case at
least `retryDelay`) between consecutive attempts; after exhausting the
retries the entry is dropped (delivered = `false`), the call returns
normally (the catch block swallows the error, so the promise resolves and
nothing propagates to the caller of `log`), and immediate mode has no
queue for the entry to be put back on. -/
theorem sendLog_retry_exhaustion (minLevel : Option LogLevel) (succeeds : Nat → Bool)
    (retryCount retryDelay : Nat) (e : LogEntry)
    (hadm : shouldLog minLevel e.level = true)
    (hfail : ∀ i, succeeds i = false) :
    (httpLogImmediate minLevel succeeds retryCount retryDelay e).1 =
      List.intersperse (HttpEvent.wait (effRetryDelay retryDelay))
        ((List.range (retryCount + 1)).map HttpEvent.attempt) ∧
    (httpLogImmediate minLevel succeeds retryCount retryDelay e).1.countP isAttempt
      = retryCount + 1 ∧
    retryDelay ≤ effRetryDelay retryDelay ∧
    (httpLogImmediate minLevel succeeds retryCount retryDelay e).2 = false := by
  have hmain := sendLogFrom_allFail succeeds hfail retryCount retryDelay 0 (by omega)
  simp only [Nat.sub_zero] at hmain
  have hunfold : httpLogImmediate minLevel succeeds retryCount retryDelay e =
      sendLog succeeds retryCount retryDelay := by
    simp [httpLogImmediate, hadm]
  rw [hunfold, sendLog, hmain]
  refine ⟨by rw [List.range_eq_range'], ?_, ?_, rfl⟩
  · show List.countP isAttempt
        (List.intersperse (HttpEvent.wait (effRetryDelay retryDelay))
          ((List.range' 0 (retryCount + 1)).map HttpEvent.attempt)) = retryCount + 1
    rw [← List.range_eq_range', countP_isAttempt_intersperse]
    exact List.length_range (retryCount + 1)
  · unfold effRetryDelay
    split <;> omega

/-- Concrete instance of `sendLog_retry_exhaustion`: with retryCount = 2
and every attempt failing, the trace holds exactly 3 POST attempts and the
entry is not delivered. -/
theorem sendLog_retry_exhaustion_witness :
    (httpLogImmediate none (fun _ => false) 2 50 sampleEntry).1.countP isAttempt = 3 ∧
    (httpLogImmediate none (fun _ => false) 2 50 sampleEntry).2 = false :=
  ⟨(sendLog_retry_exhaustion none (fun _ => false) 2 50 sampleEntry rfl
      (fun _ => rfl)).2.1,
   (sendLog_retry_exhaustion none (fun _ => false) 2 50 sampleEntry rfl
      (fun _ => rfl)).2.2.2⟩

/-- Second sample entry, used to exercise batch and buffer order. -/
def sampleEntry2 : LogEntry :=
  { timestamp := "2023-01-01T12:00:01.000Z"
    level := .error
    message := "Second message"
    meta := none
    stackTrace := some "Error at main" }

/-! HTTP transport, batch mode: `HttpTransport.log` and `sendBatch`. -/

/-- Mutable state of an `HttpTransport` in batch mode: the pending
`logQueue`, the bodies of the POSTs attempted so far (each a JSON array of
entries, kept here as the entry list), and the number of `scheduleBatch`
invocations (each one clears and re-arms the batch timer). -/
structure HttpBatchState where
  logQueue : List LogEntry
  posts : List (List LogEntry)
  scheduleCount : Nat
deriving DecidableEq, Repr

/-- Translation of the use-site default `this.options.batchSize || 10` in
`HttpTransport.log`: a zero (falsy) batchSize falls back to 10. -/
def effBatchSize (batchSize : Nat) : Nat :=
  if batchSize = 0 then 10 else batchSize

/-- Translation of `HttpTransport.sendBatch` (http.transport.ts lines
135-177).  An empty queue returns at once (no POST, no reschedule).
Otherwise the queue is copied into `batch` and cleared, one POST is
attempted with the batch as body while `arrivals` — the entries pushed by
`log` during the awaited fetch — accumulate on the live queue; on a
non-2xx status or fetch error the whole batch is put back in front of the
live queue (`this.logQueue = [...batch, ...this.logQueue]`), and in every
non-empty case `scheduleBatch` re-arms the timer. -/
def sendBatch (ok : Bool) (arrivals : List LogEntry) (s : HttpBatchState) : HttpBatchState :=
  if s.logQueue.isEmpty then s
  else
    let batch := s.logQueue
    if ok then
      { logQueue := arrivals
        posts := s.posts ++ [batch]
        scheduleCount := s.scheduleCount + 1 }
    else
      { logQueue := batch ++ arrivals
        posts := s.posts ++ [batch]
        scheduleCount := s.scheduleCount + 1 }

/-- Translation of `HttpTransport.log` (http.transport.ts lines 80-100)
with `batchLogs` enabled: the level gate, push onto the queue, and an
immediate out-of-band `sendBatch` when the queue length has reached the
effective batch size. -/
def httpLogBatched (minLevel : Option LogLevel) (batchSize : Nat) (ok : Bool)
    (arrivals : List LogEntry) (s : HttpBatchState) (e : LogEntry) : HttpBatchState :=
  if shouldLog minLevel e.level then
    if effBatchSize batchSize ≤ (s.logQueue ++ [e]).length then
      sendBatch ok arrivals { s with logQueue := s.logQueue ++ [e] }
    else { s with logQueue := s.logQueue ++ [e] }
  else s

/-- C3: in batch mode an admitted entry is appended to the in-memory
queue; as soon as the queue length has reached batchSize (positive
configured value — a zero batchSize is falsy and falls back to the default
10) the queue is flushed immediately without waiting for the timer: one
POST is attempted whose body is exactly the queued entries in enqueue
order, the queue is emptied into that batch, and the flush re-arms the
batch timer; below batchSize the entry is only queued and no POST
happens. -/
theorem httpLog_batch_flush (minLevel : Option LogLevel) (batchSize : Nat) (ok : Bool)
    (arrivals : List LogEntry) (s : HttpBatchState) (e : LogEntry)
    (hpos : 1 ≤ batchSize)
    (hadm : shouldLog minLevel e.level = true) :
    (batchSize ≤ s.logQueue.length + 1 →
      httpLogBatched minLevel batchSize ok arrivals s e =
        { logQueue := if ok then arrivals else (s.logQueue ++ [e]) ++ arrivals
          posts := s.posts ++ [s.logQueue ++ [e]]
          scheduleCount := s.scheduleCount + 1 }) ∧
    (s.logQueue.length + 1 < batchSize →
      httpLogBatched minLevel batchSize ok arrivals s e =
        { s with logQueue := s.logQueue ++ [e] }) := by
  have heff : effBatchSize batchSize = batchSize := by
    unfold effBatchSize
    split <;> omega
  have hlen : (s.logQueue ++ [e]).length = s.logQueue.length + 1 := by
    simp
  have hne : (s.logQueue ++ [e]).isEmpty = false := by
    simp
  constructor
  · intro hreach
    have hcond : effBatchSize batchSize ≤ (s.logQueue ++ [e]).length := by
      rw [heff, hlen]
      omega
    unfold httpLogBatched
    rw [if_pos hadm, if_pos hcond]
    unfold sendBatch
    cases ok <;> simp [hne]
  · intro hbelow
    have hcond : ¬ effBatchSize batchSize ≤ (s.logQueue ++ [e]).length := by
      rw [heff, hlen]
      omega
    unfold httpLogBatched
    rw [if_pos hadm, if_neg hcond]

/-- Concrete instance of `httpLog_batch_flush`: with batchSize 2 and one
entry already queued, logging a second entry flushes a single POST whose
body is both entries in enqueue order and re-arms the timer. -/
theorem httpLog_batch_flush_witness :
    httpLogBatched none 2 true []
        { logQueue := [sampleEntry], posts := [], scheduleCount := 0 } sampleEntry2 =
      { logQueue := []
        posts := [[sampleEntry, sampleEntry2]]
        scheduleCount := 1 } :=
  (httpLog_batch_flush none 2 true []
      { logQueue := [sampleEntry], posts := [], scheduleCount := 0 } sampleEntry2
      (by decide) rfl).1 (by decide)

/-- C4: when a batch POST fails, the entire failed batch is prepended back
onto the live queue in its original internal order, ahead of the entries
that arrived while the POST was in flight, so the next flush retries it
together with the newer entries; exactly one POST was attempted, with the
whole batch as its body (no entry is retried individually), and no entry
of the batch is discarded. -/
theorem sendBatch_failure_requeue (arrivals : List LogEntry) (s : HttpBatchState)
    (hne : s.logQueue ≠ []) :
    (sendBatch false arrivals s).logQueue = s.logQueue ++ arrivals ∧
    (sendBatch false arrivals s).posts = s.posts ++ [s.logQueue] ∧
    (sendBatch false arrivals s).scheduleCount = s.scheduleCount + 1 := by
  unfold sendBatch
  have h : s.logQueue.isEmpty = false := by
    simpa using hne
  rw [h]
  simp

/-- Concrete instance of `sendBatch_failure_requeue`: a failed batch of
one entry ends up in front of the entry that arrived during the POST. -/
theorem sendBatch_failure_requeue_witness :
    (sendBatch false [sampleEntry2]
        { logQueue := [sampleEntry], posts := [], scheduleCount := 0 }).logQueue =
      [sampleEntry, sampleEntry2] :=
  (sendBatch_failure_requeue [sampleEntry2]
      { logQueue := [sampleEntry], posts := [], scheduleCount := 0 } (by decide)).1

/-! File transport: the rotation state machine of `FileTransport`. -/

/-- File-open mode of the write stream, the `mode` option of
FileTransportOptions: append corresponds to flag `a`, write to flag
`w`. -/
inductive FileMode where
  | append
  | write
deriving DecidableEq, Repr

/-- On-disk state relevant to one FileTransport: the content of the file
at `currentFilePath` (`none` when the file does not exist) and the
contents of the numbered backup files `base.i.ext`. -/
structure FileSys where
  active : Option String
  backups : Nat → Option String

/-- Mutable state of a FileTransport: the disk, whether `writeStream` is
currently non-null, and the tracked `currentSize` in bytes. -/
structure FileTransportState where
  fs : FileSys
  streamOpen : Bool
  currentSize : Nat

/-- Translation of the guarded `fs.unlinkSync(oldestFile)` of
`renameOldFiles`: deleting the backup at index `k` (an absent file stays
absent, which the existsSync guard in the source also guarantees). -/
def delAt (k : Nat) (b : Nat → Option String) : Nat → Option String :=
  fun j => if j = k then none else b j

/-- Translation of one iteration of the shift loop of `renameOldFiles`:
if `base.src.ext` exists it is renamed to `base.dst.ext`. -/
def moveIfExists (src dst : Nat) (b : Nat → Option String) : Nat → Option String :=
  match b src with
  | some c => fun j => if j = dst then some c else if j = src then none else b j
  | none => b

/-- Translation of the loop `for (let i = maxIndex - 1; i >= 1; i--)` of
`renameOldFiles`: `shiftFrom i` performs the iterations for indices
`i, i - 1, ..., 1` in that order, each renaming `base.i.ext` to
`base.(i+1).ext` when present. -/
def shiftFrom : Nat → (Nat → Option String) → (Nat → Option String)
  | 0, b => b
  | i + 1, b => shiftFrom i (moveIfExists (i + 1) (i + 2) b)

/-- Translation of `FileTransport.renameOldFiles` (file.transport.ts lines
222-249): with `maxIndex = this.options.maxFiles || 5`, delete
`base.maxIndex.ext` if present, shift indices `maxIndex - 1 .. 1` up by
one from highest to lowest, then rename the active file to `base.1.ext`.
When the active file is missing that last `renameSync` throws and the
surrounding catch swallows the error after the earlier steps have already
happened, so the net effect is captured by the `none` branch. -/
def renameOldFiles (maxFiles : Nat) (fs : FileSys) : FileSys :=
  let maxIndex := if maxFiles = 0 then 5 else maxFiles
  let b1 := shiftFrom (maxIndex - 1) (delAt maxIndex fs.backups)
  match fs.active with
  | some c => { active := none, backups := fun j => if j = 1 then some c else b1 j }
  | none => { active := none, backups := b1 }

/-- Translation of `FileTransport.createWriteStream` (lines 181-200): an
existing stream is ended, then a stream is opened at `currentFilePath`
with the configured flags — append keeps existing content and creates an
empty file when absent, write truncates. -/
def createWriteStream (mode : FileMode) (s : FileTransportState) : FileTransportState :=
  { s with
      streamOpen := true
      fs := { s.fs with active :=
        match mode with
        | .append => some (s.fs.active.getD "")
        | .write => some "" } }

/-- Translation of `FileTransport.rotateFile` (lines 205-217): when
`writeStream` is null the method returns immediately without rotating;
otherwise it ends the stream, runs `renameOldFiles`, resets `currentSize`
to 0 and opens a fresh stream at the original path. -/
def rotateFile (maxFiles : Nat) (mode : FileMode) (s : FileTransportState) :
    FileTransportState :=
  if s.streamOpen then
    createWriteStream mode
      { fs := renameOldFiles maxFiles s.fs, streamOpen := false, currentSize := 0 }
  else s

/-- Translation of `FileTransport.checkFileSize` (lines 159-176): when the
target file exists its size becomes `currentSize` and, if `maxSize` is
truthy and met, `rotateFile` is invoked; otherwise `currentSize` is 0. -/
def checkFileSize (maxSize maxFiles : Nat) (mode : FileMode) (s : FileTransportState) :
    FileTransportState :=
  match s.fs.active with
  | some c =>
    if maxSize ≠ 0 ∧ maxSize ≤ c.length then
      rotateFile maxFiles mode { s with currentSize := c.length }
    else { s with currentSize := c.length }
  | none => { s with currentSize := 0 }

/-- Configuration options of FileTransport used by the modelled paths.
Absent keys are `none`. -/
structure FileTransportOptions where
  filename : Option String
  mode : Option FileMode
  maxSize : Option Nat
  maxFiles : Option Nat

/-- JavaScript falsiness of an optional string option: absent or the empty
string. -/
def strFalsy : Option String → Bool
  | none => true
  | some s => s.isEmpty

/-- Translation of the `FileTransport` constructor (file.transport.ts
lines 57-92), restricted to the modelled state: the filename guard throws,
defaults are merged (`mode: a`, `maxSize: 10 * 1024 * 1024`,
`maxFiles: 5`), then `checkFileSize` runs and only afterwards
`createWriteStream` opens the stream. -/
def FileTransport.mkModel (o : FileTransportOptions) (disk : FileSys) :
    Except String FileTransportState :=
  if strFalsy o.filename then
    Except.error "Filename must be specified for FileTransport"
  else
    let mode := o.mode.getD .append
    let maxSize := o.maxSize.getD 10485760
    let maxFiles := o.maxFiles.getD 5
    let s0 : FileTransportState := { fs := disk, streamOpen := false, currentSize := 0 }
    Except.ok (createWriteStream mode (checkFileSize maxSize maxFiles mode s0))

theorem shiftFrom_gt (i : Nat) (b : Nat → Option String) :
    ∀ j, i + 1 < j → shiftFrom i b j = b j := by
  induction i generalizing b with
  | zero => intro j h; rfl
  | succ i ih =>
    intro j h
    rw [shiftFrom, ih _ _ (by omega)]
    unfold moveIfExists
    cases hb : b (i + 1) with
    | some c =>
      simp only []
      rw [if_neg (by omega), if_neg (by omega)]
    | none => rfl

theorem shiftFrom_pos_one (i : Nat) (b : Nat → Option String) (hi : 1 ≤ i) :
    shiftFrom i b 1 = none := by
  induction i generalizing b with
  | zero => omega
  | succ i ih =>
    rw [shiftFrom]
    by_cases h1 : 1 ≤ i
    · exact ih _ h1
    · have hz : i = 0 := by omega
      subst hz
      show moveIfExists 1 2 b 1 = none
      unfold moveIfExists
      cases hb : b 1 with
      | some c => simp
      | none => exact hb

theorem moveIfExists_src_none (src dst : Nat) (b : Nat → Option String)
    (h : src ≠ dst) : moveIfExists src dst b src = none := by
  cases hb : b src with
  | some c =>
    simp only [moveIfExists, hb]
    rw [if_neg h]
    simp
  | none =>
    simp [moveIfExists, hb]

theorem moveIfExists_other (src dst : Nat) (b : Nat → Option String)
    (j : Nat) (h1 : j ≠ src) (h2 : j ≠ dst) : moveIfExists src dst b j = b j := by
  cases hb : b src with
  | some c =>
    simp only [moveIfExists, hb]
    rw [if_neg h2, if_neg h1]
  | none =>
    simp only [moveIfExists, hb]

theorem shiftFrom_shift (i : Nat) (b : Nat → Option String) (hnone : b (i + 1) = none) :
    ∀ k, 1 ≤ k → k ≤ i → shiftFrom i b (k + 1) = b k := by
  induction i generalizing b with
  | zero => intro k h1 h2; omega
  | succ i ih =>
    intro k h1 h2
    rw [shiftFrom]
    by_cases hk : k = i + 1
    · subst hk
      rw [shiftFrom_gt i _ _ (by omega)]
      cases hb : b (i + 1) with
      | some c =>
        simp only [moveIfExists, hb]
        simp
      | none =>
        simp only [moveIfExists, hb]
        exact hnone
    · have hk2 : k ≤ i := by omega
      have hb' : moveIfExists (i + 1) (i + 2) b (i + 1) = none :=
        moveIfExists_src_none _ _ _ (by omega)
      rw [ih _ hb' k h1 hk2]
      exact moveIfExists_other _ _ _ _ (by omega) (by omega)

theorem renameOldFiles_spec (maxFiles : Nat) (fs : FileSys) (hpos : 1 ≤ maxFiles)
    (hceil : ∀ i, maxFiles < i → fs.backups i = none) :
    (renameOldFiles maxFiles fs).active = none ∧
    (renameOldFiles maxFiles fs).backups 1 = fs.active ∧
    (∀ k, 1 ≤ k → k < maxFiles →
      (renameOldFiles maxFiles fs).backups (k + 1) = fs.backups k) ∧
    (∀ i, maxFiles < i → (renameOldFiles maxFiles fs).backups i = none) := by
  have hidx : (if maxFiles = 0 then 5 else maxFiles) = maxFiles := by
    rw [if_neg (by omega)]
  have hdel : delAt maxFiles fs.backups maxFiles = none := by
    unfold delAt
    rw [if_pos rfl]
  have hdel_other : ∀ j, j ≠ maxFiles → delAt maxFiles fs.backups j = fs.backups j := by
    intro j hj
    unfold delAt
    rw [if_neg hj]
  have htop : delAt maxFiles fs.backups (maxFiles - 1 + 1) = none := by
    have : maxFiles - 1 + 1 = maxFiles := by omega
    rw [this, hdel]
  have hb1_one : shiftFrom (maxFiles - 1) (delAt maxFiles fs.backups) 1 = none := by
    by_cases hm : 2 ≤ maxFiles
    · exact shiftFrom_pos_one _ _ (by omega)
    · have hm1 : maxFiles = 1 := by omega
      subst hm1
      exact hdel
  have hb1_shift : ∀ k, 1 ≤ k → k < maxFiles →
      shiftFrom (maxFiles - 1) (delAt maxFiles fs.backups) (k + 1) = fs.backups k := by
    intro k h1 h2
    rw [shiftFrom_shift _ _ htop k h1 (by omega)]
    exact hdel_other k (by omega)
  have hb1_above : ∀ i, maxFiles < i →
      shiftFrom (maxFiles - 1) (delAt maxFiles fs.backups) i = none := by
    intro i hi
    rw [shiftFrom_gt _ _ i (by omega), hdel_other i (by omega)]
    exact hceil i hi
  cases hact : fs.active with
  | some c =>
    refine ⟨?_, ?_, ?_, ?_⟩
    · simp [renameOldFiles, hidx, hact]
    · simp only [renameOldFiles, hidx, hact]
      simp
    · intro k h1 h2
      simp only [renameOldFiles, hidx, hact]
      rw [if_neg (by omega)]
      exact hb1_shift k h1 h2
    · intro i hi
      simp only [renameOldFiles, hidx, hact]
      rw [if_neg (by omega)]
      exact hb1_above i hi
  | none =>
    refine ⟨?_, ?_, ?_, ?_⟩
    · simp [renameOldFiles, hidx, hact]
    · simp only [renameOldFiles, hidx, hact]
      exact hb1_one
    · intro k h1 h2
      simp only [renameOldFiles, hidx, hact]
      exact hb1_shift k h1 h2
    · intro i hi
      simp only [renameOldFiles, hidx, hact]
      exact hb1_above i hi

theorem createWriteStream_backups (mode : FileMode) (s : FileTransportState) :
    (createWriteStream mode s).fs.backups = s.fs.backups := rfl

theorem rotateFile_preserves_bounded (maxFiles : Nat) (mode : FileMode)
    (s : FileTransportState) (hpos : 1 ≤ maxFiles)
    (hceil : ∀ i, maxFiles < i → s.fs.backups i = none) :
    ∀ i, maxFiles < i → (rotateFile maxFiles mode s).fs.backups i = none := by
  intro i hi
  unfold rotateFile
  by_cases h : s.streamOpen = true
  · rw [if_pos h, createWriteStream_backups]
    exact (renameOldFiles_spec maxFiles s.fs hpos hceil).2.2.2 i hi
  · rw [if_neg h]
    exact hceil i hi

/-- C5: a rotation on an open stream closes and reopens the handle with
the tracked size reset to 0 and a fresh empty active file; the previous
active content ends up at backup index 1; each backup at index
`k < maxFiles` moves to index `k + 1`; the pre-rotation backup at index
`maxFiles` (the oldest) is deleted before the shift so nothing ever lands
above index `maxFiles`; and starting from a state with no backup above
`maxFiles`, any number of rotations keeps every index above `maxFiles`
empty — at most `maxFiles` numbered backups ever exist. -/
theorem rotateFile_procedure (maxFiles : Nat) (mode : FileMode) (s : FileTransportState)
    (hpos : 1 ≤ maxFiles) (hopen : s.streamOpen = true)
    (hceil : ∀ i, maxFiles < i → s.fs.backups i = none) :
    (rotateFile maxFiles mode s).currentSize = 0 ∧
    (rotateFile maxFiles mode s).streamOpen = true ∧
    (rotateFile maxFiles mode s).fs.active = some "" ∧
    (rotateFile maxFiles mode s).fs.backups 1 = s.fs.active ∧
    (∀ k, 1 ≤ k → k < maxFiles →
      (rotateFile maxFiles mode s).fs.backups (k + 1) = s.fs.backups k) ∧
    (∀ i, maxFiles < i → (rotateFile maxFiles mode s).fs.backups i = none) ∧
    (∀ n i, maxFiles < i →
      ((rotateFile maxFiles mode)^[n] s).fs.backups i = none) := by
  have hr := renameOldFiles_spec maxFiles s.fs hpos hceil
  have hrot : rotateFile maxFiles mode s =
      createWriteStream mode
        { fs := renameOldFiles maxFiles s.fs, streamOpen := false, currentSize := 0 } := by
    unfold rotateFile
    rw [if_pos hopen]
  refine ⟨by rw [hrot]; rfl, by rw [hrot]; rfl, ?_, ?_, ?_, ?_, ?_⟩
  · rw [hrot]
    cases mode with
    | append =>
      show some ((renameOldFiles maxFiles s.fs).active.getD "") = some ""
      rw [hr.1]
      rfl
    | write => rfl
  · rw [hrot, createWriteStream_backups]
    exact hr.2.1
  · intro k h1 h2
    rw [hrot, createWriteStream_backups]
    exact hr.2.2.1 k h1 h2
  · intro i hi
    rw [hrot, createWriteStream_backups]
    exact hr.2.2.2 i hi
  · intro n
    induction n with
    | zero => exact hceil
    | succ n ih =>
      intro i hi
      rw [Function.iterate_succ_apply']
      exact rotateFile_preserves_bounded maxFiles mode _ hpos ih i hi

/-- Backup files of the concrete rotation example: `B1` at index 1 and
`B2` at index 2. -/
def rotSampleBackups : Nat → Option String :=
  fun j => if j = 1 then some "B1" else if j = 2 then some "B2" else none

/-- Concrete FileTransport state used to instantiate
`rotateFile_procedure`. -/
def rotSampleState : FileTransportState :=
  { fs := { active := some "AA", backups := rotSampleBackups }
    streamOpen := true
    currentSize := 7 }

theorem rotSampleBackups_bounded : ∀ i, 2 < i → rotSampleState.fs.backups i = none := by
  intro i hi
  show (if i = 1 then some "B1" else if i = 2 then some "B2" else none) = none
  rw [if_neg (by omega), if_neg (by omega)]

/-- Concrete instance of `rotateFile_procedure` with maxFiles = 2: the
active content moves to index 1, the old index-1 backup moves to index 2,
the old index-2 backup (at the retention ceiling) is deleted, nothing
exists above index 2, and the fresh file has size 0. -/
theorem rotateFile_procedure_witness :
    (rotateFile 2 .append rotSampleState).fs.backups 1 = some "AA" ∧
    (rotateFile 2 .append rotSampleState).fs.backups 2 = some "B1" ∧
    (rotateFile 2 .append rotSampleState).fs.backups 3 = none ∧
    (rotateFile 2 .append rotSampleState).currentSize = 0 :=
  ⟨((rotateFile_procedure 2 .append rotSampleState (by omega) rfl
      rotSampleBackups_bounded).2.2.2.1).trans rfl,
   ((rotateFile_procedure 2 .append rotSampleState (by omega) rfl
      rotSampleBackups_bounded).2.2.2.2.1 1 (by omega) (by omega)).trans rfl,
   (rotateFile_procedure 2 .append rotSampleState (by omega) rfl
      rotSampleBackups_bounded).2.2.2.2.2.1 3 (by omega),
   (rotateFile_procedure 2 .append rotSampleState (by omega) rfl
      rotSampleBackups_bounded).1⟩

/-- C6 (code bug): constructing a FileTransport over an existing file
whose size already exceeds `maxSize` does NOT rotate it.  The constructor
runs `checkFileSize` before `createWriteStream`, so when `checkFileSize`
calls `rotateFile` the `writeStream` field is still null and `rotateFile`
returns at its first guard without doing anything.  Evaluated at maxSize 5
over an existing 10-byte file: after construction no `.1` backup exists,
the active file still holds the old content, and the tracked size is 10,
not 0 — the first write appends to the oversized file instead of a fresh
one. -/
theorem fileTransport_startup_no_rotation :
    ((FileTransport.mkModel
        { filename := some "app.log", mode := none, maxSize := some 5, maxFiles := none }
        { active := some "0123456789", backups := fun _ => none }).toOption.map
      fun s => (s.fs.backups 1, s.fs.active, s.currentSize, s.streamOpen))
      = some (none, some "0123456789", 10, true) := rfl

/-! WebSocket transport: buffering while disconnected, flush on open,
reconnect scheduling. -/

/-- Observable state of a WebSocketTransport: whether the socket is in the
`OPEN` ready state, the capped send buffer, and the frames sent so far (in
order). -/
structure WsState where
  socketOpen : Bool
  buffer : List LogEntry
  sent : List LogEntry
deriving DecidableEq, Repr

/-- Translation of `WebSocketTransport.bufferMessage`
(websocket.transport.ts lines 176-183): when `maxBufferSize` is truthy
(non-zero) and the buffer is at or above capacity, the oldest entry is
shifted off the front, then the entry is pushed.  A zero (falsy)
`maxBufferSize` makes the guard short-circuit, skipping the capacity check
entirely. -/
def bufferMessage (maxBufferSize : Nat) (buf : List LogEntry) (e : LogEntry) :
    List LogEntry :=
  (if maxBufferSize ≠ 0 ∧ maxBufferSize ≤ buf.length then buf.tail else buf) ++ [e]

/-- Translation of `WebSocketTransport.log` (websocket.transport.ts lines
83-97) together with `sendLogEntry` on the open path: the level gate, then
— when the socket is not open — buffering if `bufferWhenDisconnected` is
set and dropping otherwise; when the socket is open, `sendLogEntry`
serializes the entry and sends it (`socket.send` returning normally on an
open socket in this model). -/
def wsLog (minLevel : Option LogLevel) (bufferWhenDisconnected : Bool)
    (maxBufferSize : Nat) (s : WsState) (e : LogEntry) : WsState :=
  if shouldLog minLevel e.level then
    if s.socketOpen then { s with sent := s.sent ++ [e] }
    else if bufferWhenDisconnected then
      { s with buffer := bufferMessage maxBufferSize s.buffer e }
    else s
  else s

/-- Translation of `WebSocketTransport.handleOpen` and
`sendBufferedMessages` (lines 130-136 and 188-198): on reaching the open
state the buffered entries are sent one by one in buffer order, then the
buffer is reset to empty. -/
def wsHandleOpen (s : WsState) : WsState :=
  if s.buffer.isEmpty then { s with socketOpen := true }
  else { socketOpen := true, buffer := [], sent := s.sent ++ s.buffer }

/-- C7 counterexample input: a disconnected transport with buffering
enabled and `maxBufferSize` configured to 0. -/
def wsZero : WsState :=
  { socketOpen := false, buffer := [], sent := [] }

/-- C7 as stated is false when `maxBufferSize = 0`: the claim requires the
buffer to always hold at most `maxBufferSize` entries, but a zero
`maxBufferSize` is falsy, the capacity guard of `bufferMessage` never
fires, and a single admitted entry logged while disconnected already
leaves 1 > 0 entries buffered (the buffer grows without bound). -/
theorem wsBuffer_zero_cap_counterexample :
    (wsLog none true 0 wsZero sampleEntry).buffer = [sampleEntry] ∧
    ((wsLog none true 0 wsZero sampleEntry).buffer.length ≤ 0) = False := by
  have h : (wsLog none true 0 wsZero sampleEntry).buffer = [sampleEntry] := rfl
  refine ⟨h, ?_⟩
  rw [h]
  simp

/-- C7 (amended: for a non-zero maxBufferSize; a zero maxBufferSize is
falsy and disables the cap, letting the buffer grow without bound): with
buffering enabled, an admitted entry logged while the socket is not open
is appended to the buffer, the oldest entry being dropped when the buffer
is at capacity — so the buffer keeps the most recent at most
`maxBufferSize` entries in arrival order and nothing is sent; on reaching
open, the entire buffer is sent in original order and then cleared; with
buffering disabled, an admitted entry logged while not open is dropped
outright. -/
theorem wsBuffer_cap_flush (minLevel : Option LogLevel) (maxBufferSize : Nat)
    (s : WsState) (e : LogEntry)
    (hadm : shouldLog minLevel e.level = true) (hpos : maxBufferSize ≠ 0) :
    (s.socketOpen = false → s.buffer.length ≤ maxBufferSize →
      (wsLog minLevel true maxBufferSize s e).buffer =
        (s.buffer ++ [e]).drop (s.buffer.length + 1 - maxBufferSize) ∧
      (wsLog minLevel true maxBufferSize s e).buffer.length ≤ maxBufferSize ∧
      (wsLog minLevel true maxBufferSize s e).sent = s.sent) ∧
    ((wsHandleOpen s).sent = s.sent ++ s.buffer ∧ (wsHandleOpen s).buffer = []) ∧
    (s.socketOpen = false → wsLog minLevel false maxBufferSize s e = s) := by
  refine ⟨?_, ?_, ?_⟩
  · intro hclosed hle
    have hlog : wsLog minLevel true maxBufferSize s e =
        { s with buffer := bufferMessage maxBufferSize s.buffer e } := by
      unfold wsLog
      rw [if_pos hadm, hclosed]
      simp
    have hbuf : bufferMessage maxBufferSize s.buffer e =
        (s.buffer ++ [e]).drop (s.buffer.length + 1 - maxBufferSize) := by
      unfold bufferMessage
      by_cases hcap : maxBufferSize ≤ s.buffer.length
      · have heq : s.buffer.length = maxBufferSize := by omega
        rw [if_pos ⟨hpos, hcap⟩]
        have hdrop1 : s.buffer.length + 1 - maxBufferSize = 1 := by omega
        rw [hdrop1, List.drop_append_of_le_length (by omega), List.drop_one]
      · rw [if_neg (by omega)]
        have hdrop0 : s.buffer.length + 1 - maxBufferSize = 0 := by omega
        rw [hdrop0, List.drop_zero]
    refine ⟨by rw [hlog]; exact hbuf, ?_, by rw [hlog]⟩
    rw [hlog]
    show (bufferMessage maxBufferSize s.buffer e).length ≤ maxBufferSize
    rw [hbuf, List.length_drop]
    simp only [List.length_append, List.length_singleton]
    omega
  · unfold wsHandleOpen
    by_cases hb : s.buffer.isEmpty
    · rw [if_pos hb]
      have hnil : s.buffer = [] := by
        simpa [List.isEmpty_iff] using hb
      rw [hnil]
      exact ⟨by simp, rfl⟩
    · rw [if_neg hb]
      exact ⟨rfl, rfl⟩
  · intro hclosed
    unfold wsLog
    rw [if_pos hadm, hclosed]
    simp

/-- Concrete instance of `wsBuffer_cap_flush` with maxBufferSize 1: a
second entry buffered while disconnected evicts the first, and opening the
connection flushes the buffer. -/
theorem wsBuffer_cap_flush_witness :
    (wsLog none true 1
        { socketOpen := false, buffer := [sampleEntry], sent := [] }
        sampleEntry2).buffer = [sampleEntry2] ∧
    (wsHandleOpen { socketOpen := false, buffer := [sampleEntry], sent := [] }).sent
      = [sampleEntry] :=
  ⟨((wsBuffer_cap_flush none 1
        { socketOpen := false, buffer := [sampleEntry], sent := [] }
        sampleEntry2 rfl (by omega)).1 rfl (by simp)).1.trans rfl,
   ((wsBuffer_cap_flush none 1
        { socketOpen := false, buffer := [sampleEntry], sent := [] }
        sampleEntry2 rfl (by omega)).2.1.1).trans rfl⟩

/-- Reconnect bookkeeping of a WebSocketTransport: the attempt counter and
whether a reconnect timer is armed. -/
structure WsReconnectState where
  reconnectAttempts : Nat
  timerSet : Bool
deriving DecidableEq, Repr

/-- Translation of the reconnect guard of `WebSocketTransport.handleClose`
(websocket.transport.ts line 145):
`this.options.reconnect && (!this.options.maxReconnectAttempts ||
this.reconnectAttempts < (this.options.maxReconnectAttempts || 0))` —
a zero `maxReconnectAttempts` is falsy, so the first disjunct is true and
the ceiling comparison is skipped. -/
def shouldScheduleReconnect (reconnect : Bool) (maxReconnectAttempts attempts : Nat) :
    Bool :=
  reconnect &&
    (decide (maxReconnectAttempts = 0) || decide (attempts < maxReconnectAttempts))

/-- Translation of `WebSocketTransport.handleClose` plus
`scheduleReconnect` (lines 141-148 and 160-171): when the guard passes,
the attempt counter is incremented and a reconnect timer is armed;
otherwise nothing happens. -/
def wsHandleClose (reconnect : Bool) (maxReconnectAttempts : Nat)
    (s : WsReconnectState) : WsReconnectState :=
  if shouldScheduleReconnect reconnect maxReconnectAttempts s.reconnectAttempts then
    { reconnectAttempts := s.reconnectAttempts + 1, timerSet := true }
  else s

/-- Translation of the constructor merge
`{ maxReconnectAttempts: 5, ...options }` of WebSocketTransport: an
explicitly passed value survives the merge, so `some 0` yields 0. -/
def wsEffMaxReconnectAttempts (o : Option Nat) : Nat :=
  o.getD 5

/-- C10: with reconnect enabled and `maxReconnectAttempts` explicitly set
to 0, the falsy-zero guard of `handleClose` treats the ceiling as absent:
every unexpected close passes the check whatever the attempt counter is, a
reconnect is scheduled each time, and the counter grows without bound
instead of reconnection being disabled. -/
theorem reconnect_zero_ceiling_unbounded :
    (∀ attempts,
      shouldScheduleReconnect true (wsEffMaxReconnectAttempts (some 0)) attempts = true) ∧
    (∀ s, wsHandleClose true (wsEffMaxReconnectAttempts (some 0)) s =
      { reconnectAttempts := s.reconnectAttempts + 1, timerSet := true }) ∧
    (∀ n s,
      ((wsHandleClose true (wsEffMaxReconnectAttempts (some 0)))^[n] s).reconnectAttempts
        = s.reconnectAttempts + n) := by
  have hg : ∀ attempts,
      shouldScheduleReconnect true (wsEffMaxReconnectAttempts (some 0)) attempts = true := by
    intro attempts
    rfl
  have hc : ∀ s, wsHandleClose true (wsEffMaxReconnectAttempts (some 0)) s =
      { reconnectAttempts := s.reconnectAttempts + 1, timerSet := true } := by
    intro s
    unfold wsHandleClose
    rw [if_pos (hg s.reconnectAttempts)]
  refine ⟨hg, hc, ?_⟩
  intro n
  induction n with
  | zero => intro s; rfl
  | succ n ih =>
    intro s
    rw [Function.iterate_succ_apply', hc]
    simp [ih s, Nat.add_assoc]

/-! Entry immutability across transports. -/

/-- Upper-cased enum value, the translation of
`entry.level.toUpperCase()`. -/
def levelUpper : LogLevel → String
  | .debug => "DEBUG"
  | .info => "INFO"
  | .warn => "WARN"
  | .error => "ERROR"
  | .fatal => "FATAL"

/-- Translation of the text-format `logString` built by
`FileTransport.log` (file.transport.ts lines 108-121): the bracketed
timestamp and upper-cased level, the message, the serialized meta when
present, the stack trace on a following line, and a trailing newline —
built purely from reads of the entry. -/
def fileLogString (e : LogEntry) : String :=
  "[" ++ e.timestamp ++ "] [" ++ levelUpper e.level ++ "] " ++ e.message
    ++ (match e.meta with
        | some m => " " ++ m
        | none => "")
    ++ (match e.stackTrace with
        | some st => "\n" ++ st
        | none => "")
    ++ "\n"

/-- Translation of `ConsoleTransport.formatSimple` (file.transport.ts
lines 428-455): optional bracketed timestamp and level, the message, the
serialized meta, and the stack trace on a following line — again built
purely from reads of the entry. -/
def formatSimple (showTimestamp showLevel : Bool) (e : LogEntry) : String :=
  (if showTimestamp then "[" ++ e.timestamp ++ "] " else "")
    ++ (if showLevel then "[" ++ levelUpper e.level ++ "] " else "")
    ++ e.message
    ++ (match e.meta with
        | some m => " " ++ m
        | none => "")
    ++ (match e.stackTrace with
        | some st => "\n" ++ st
        | none => "")

/-- Translation of `ConsoleTransport.log` (file.transport.ts lines
395-423, simple format) at the granularity of its interaction with the
entry object: the body only reads entry fields while building
`logOutput`; it contains no assignment to the entry, so the entry value it
leaves behind is, field for field, the one it received.  The pair returns
the console lines produced and the entry as left by the call. -/
def consoleTransportLog (minLevel : Option LogLevel) (showTimestamp showLevel : Bool)
    (e : LogEntry) : List String × LogEntry :=
  (if shouldLog minLevel e.level then [formatSimple showTimestamp showLevel e] else [], e)

/-- Translation of `FileTransport.log` (file.transport.ts lines 97-137,
text format) at the same granularity: `logString` is built from reads of
the entry and written to the stream; no entry field is assigned.  The pair
returns the lines written and the entry as left by the call. -/
def fileTransportLog (minLevel : Option LogLevel) (e : LogEntry) :
    List String × LogEntry :=
  (if shouldLog minLevel e.level then [fileLogString e] else [], e)

/-- Translation of `HttpTransport.log` in batch mode at the same
granularity: the entry is pushed onto the queue by reference and
serialized by `JSON.stringify` during `sendBatch`; no entry field is
assigned anywhere on the path.  The pair returns the transport state and
the entry as left by the call. -/
def httpTransportLogB (minLevel : Option LogLevel) (batchSize : Nat) (ok : Bool)
    (arrivals : List LogEntry) (s : HttpBatchState) (e : LogEntry) :
    HttpBatchState × LogEntry :=
  (httpLogBatched minLevel batchSize ok arrivals s e, e)

/-- Translation of `WebSocketTransport.log` at the same granularity:
the entry is pushed onto the buffer or serialized and sent; no entry field
is assigned.  The pair returns the transport state and the entry as left
by the call. -/
def wsTransportLog (minLevel : Option LogLevel) (bufferWhenDisconnected : Bool)
    (maxBufferSize : Nat) (s : WsState) (e : LogEntry) : WsState × LogEntry :=
  (wsLog minLevel bufferWhenDisconnected maxBufferSize s e, e)

/-- C8: delivery through any of the four transports leaves the entry
argument unchanged — every field of the entry after `log` equals the
corresponding field before — so the same entry value handed to a second
transport after a first produces exactly the output it would produce on
the original entry, and transformations (rendered strings, serialized
bodies) are fresh values computed from reads. -/
theorem log_entry_immutable (minLevel : Option LogLevel) (showTimestamp showLevel : Bool)
    (batchSize : Nat) (ok : Bool) (arrivals : List LogEntry) (hs : HttpBatchState)
    (bufferWhenDisconnected : Bool) (maxBufferSize : Nat) (ws : WsState) (e : LogEntry) :
    (consoleTransportLog minLevel showTimestamp showLevel e).2 = e ∧
    (fileTransportLog minLevel e).2 = e ∧
    (httpTransportLogB minLevel batchSize ok arrivals hs e).2 = e ∧
    (wsTransportLog minLevel bufferWhenDisconnected maxBufferSize ws e).2 = e ∧
    ((consoleTransportLog minLevel showTimestamp showLevel e).2.timestamp = e.timestamp ∧
      (consoleTransportLog minLevel showTimestamp showLevel e).2.level = e.level ∧
      (consoleTransportLog minLevel showTimestamp showLevel e).2.message = e.message ∧
      (consoleTransportLog minLevel showTimestamp showLevel e).2.meta = e.meta ∧
      (consoleTransportLog minLevel showTimestamp showLevel e).2.stackTrace = e.stackTrace) ∧
    fileTransportLog minLevel (consoleTransportLog minLevel showTimestamp showLevel e).2
      = fileTransportLog minLevel e :=
  ⟨rfl, rfl, rfl, rfl, ⟨rfl, rfl, rfl, rfl, rfl⟩, rfl⟩

/-! Construction-time configuration errors. -/

/-- Configuration options of HttpTransport relevant to construction.
Absent keys are `none`. -/
structure HttpTransportOptions0 where
  url : Option String
  batchLogs : Option Bool

/-- Configuration options of WebSocketTransport relevant to construction.
Absent keys are `none`. -/
structure WebSocketTransportOptions0 where
  url : Option String

/-- Translation of the `HttpTransport` constructor (http.transport.ts
lines 53-75): defaults are merged, then `if (!this.options.url) throw`;
with a truthy url construction succeeds, arming the batch timer when
`batchLogs` is set. -/
def HttpTransport.mkModel (o : HttpTransportOptions0) : Except String HttpBatchState :=
  if strFalsy o.url then Except.error "URL must be specified for HttpTransport"
  else
    Except.ok
      { logQueue := []
        posts := []
        scheduleCount := if o.batchLogs.getD false then 1 else 0 }

/-- Translation of the `WebSocketTransport` constructor
(websocket.transport.ts lines 60-78): `if (!options.url) throw`, then the
defaults are merged and `connect()` starts an asynchronous connection
attempt (the socket is not yet open). -/
def WebSocketTransport.mkModel (o : WebSocketTransportOptions0) : Except String WsState :=
  if strFalsy o.url then Except.error "URL must be specified for WebSocketTransport"
  else Except.ok { socketOpen := false, buffer := [], sent := [] }

/-- C9: constructing an HttpTransport or a WebSocketTransport without a
usable url, or a FileTransport without a usable filename — absent or the
empty string, both JS-falsy — fails with an error raised at construction
(the model's constructor returns `Except.error`, the translation of the
synchronous `throw` reaching the constructing caller, not a deferred
delivery failure); with the required option present and non-empty the
constructor does not fail. -/
theorem ctor_requires_url_filename :
    (∀ o : HttpTransportOptions0,
      (HttpTransport.mkModel o).isOk = false ↔ strFalsy o.url = true) ∧
    (∀ o : WebSocketTransportOptions0,
      (WebSocketTransport.mkModel o).isOk = false ↔ strFalsy o.url = true) ∧
    (∀ (o : FileTransportOptions) (disk : FileSys),
      (FileTransport.mkModel o disk).isOk = false ↔ strFalsy o.filename = true) := by
  refine ⟨?_, ?_, ?_⟩
  · intro o
    unfold HttpTransport.mkModel
    by_cases h : strFalsy o.url = true
    · rw [if_pos h]
      simp [Except.isOk, Except.toBool, h]
    · rw [if_neg (by simpa using h)]
      simp [Except.isOk, Except.toBool, h]
  · intro o
    unfold WebSocketTransport.mkModel
    by_cases h : strFalsy o.url = true
    · rw [if_pos h]
      simp [Except.isOk, Except.toBool, h]
    · rw [if_neg (by simpa using h)]
      simp [Except.isOk, Except.toBool, h]
  · intro o disk
    unfold FileTransport.mkModel
    by_cases h : strFalsy o.filename = true
    · rw [if_pos h]
      simp [Except.isOk, Except.toBool, h]
    · rw [if_neg (by simpa using h)]
      simp [Except.isOk, Except.toBool, h]

end LoggerSpec
